import Mathlib

/-!
Verification of the deep-agent core against its specification.

This file embeds the parts of the `ai-sdk-deepagent` repository needed to settle
the frozen claims: the human-in-the-loop approval gate (`src/utils/approval.ts`),
the composite (prefix-routed) filesystem backend, the backend string utilities
(`performStringReplacement`, `formatReadResponse`), and the checkpoint savers
(in-memory, key-value, file).  Components whose implementation files are not
part of the source snapshot are modelled from the specification (and constrained
by the repository's own test files); their doc comments say so explicitly.

All definitions are executable; asynchronous TypeScript functions are embedded
as pure functions (a resolved promise is its value), and the impure fresh-id
generator is modelled as a value carried by the call context.
-/

set_option maxRecDepth 4000

namespace DeepAgent

/-! ## Approval gate (from `src/utils/approval.ts`) -/

/-- Execution options handed by the AI SDK to a tool's `execute` function.
`toolCallId` mirrors `options?.toolCallId`; `freshApprovalId` models the value
the impure `generateApprovalId()` counter produces at this invocation. -/
structure ExecOptions where
  toolCallId : Option String
  freshApprovalId : String

/-- An AI-SDK tool as built by `tool({ description, inputSchema, execute })`:
a description, a declared input schema (kept abstract as `σ`), and an optional
`execute` function returning the textual tool result. -/
structure Tool (α σ : Type) where
  description : String
  inputSchema : σ
  execute : Option (α → ExecOptions → String)

/-- One entry of the `interruptOn` record: either a boolean flag or a
`DynamicApprovalConfig` object whose `shouldApprove` member is optional. -/
inductive ApprovalConfig (α : Type) where
  | flag : Bool → ApprovalConfig α
  | dynamic : Option (α → Bool) → ApprovalConfig α

/-- The request passed to the `onApprovalRequest` callback. -/
structure ApprovalRequest (α : Type) where
  approvalId : String
  toolCallId : String
  toolName : String
  args : α

/-- Function `checkNeedsApproval` from `approval.ts`: a boolean config is returned as
is; an object config consults `shouldApprove` when defined and otherwise
defaults to `true`. -/
def checkNeedsApproval {α : Type} : ApprovalConfig α → α → Bool
  | ApprovalConfig.flag b, _ => b
  | ApprovalConfig.dynamic (some shouldApprove), args => shouldApprove args
  | ApprovalConfig.dynamic none, _ => true

/-- The denial sentinel text returned when the user rejects a tool call. -/
def denialMessage (name : String) : String :=
  "Tool execution denied by user. The " ++ name ++ " tool was not executed."

/-- JavaScript `a || b` on an optional string: an absent or empty string falls
back to the default (models `options?.toolCallId || approvalId`). -/
def jsOrString (o : Option String) (d : String) : String :=
  match o with
  | some s => if s = "" then d else s
  | none => d

/-- The execute function installed by `wrapToolsWithApproval` on a gated tool:
check whether this call needs approval, if so build an approval request and ask
the callback; a denial returns the sentinel text instead of executing. -/
def wrappedExecute {α : Type} (name : String) (config : ApprovalConfig α)
    (originalExecute : α → ExecOptions → String)
    (onApprovalRequest : ApprovalRequest α → Bool)
    (args : α) (options : ExecOptions) : String :=
  if checkNeedsApproval config args then
    let approvalId := options.freshApprovalId
    let callId := jsOrString options.toolCallId approvalId
    if onApprovalRequest ⟨approvalId, callId, name, args⟩ then
      originalExecute args options
    else
      denialMessage name
  else
    originalExecute args options

/-- Lookup of `interruptOn[name]`; a TypeScript record is embedded as an
association list. -/
def lookupToolConfig {α : Type} (interruptOn : List (String × ApprovalConfig α))
    (name : String) : Option (ApprovalConfig α) :=
  (interruptOn.find? (fun e => e.1 = name)).map (fun e => e.2)

/-- The per-entry body of the `wrapToolsWithApproval` loop: a tool whose config
is `undefined` or `false`, or which has no execute function, is kept as is;
otherwise a new tool is built with the same description and input schema and
the gated execute. -/
def wrapOneTool {α σ : Type} (onApprovalRequest : ApprovalRequest α → Bool)
    (interruptOn : List (String × ApprovalConfig α)) (entry : String × Tool α σ) :
    String × Tool α σ :=
  match lookupToolConfig interruptOn entry.1 with
  | none => entry
  | some (ApprovalConfig.flag false) => entry
  | some config =>
      match entry.2.execute with
      | none => entry
      | some originalExecute =>
          (entry.1,
            { description := entry.2.description
              inputSchema := entry.2.inputSchema
              execute :=
                some (wrappedExecute entry.1 config originalExecute onApprovalRequest) })

/-- Function `wrapToolsWithApproval` from `approval.ts`: when either `interruptOn` or
`onApprovalRequest` is missing the toolset is returned unchanged; otherwise
every entry is processed by the wrapping loop. -/
def wrapToolsWithApproval {α σ : Type} (tools : List (String × Tool α σ))
    (interruptOn : Option (List (String × ApprovalConfig α)))
    (onApprovalRequest : Option (ApprovalRequest α → Bool)) :
    List (String × Tool α σ) :=
  match interruptOn, onApprovalRequest with
  | none, _ => tools
  | some _, none => tools
  | some cfg, some cb => tools.map (wrapOneTool cb cfg)

/-- The externally observable surface of a tool entry: its name, description
and declared input schema (everything except the execute behaviour). -/
def toolSurface {α σ : Type} (entry : String × Tool α σ) : String × String × σ :=
  (entry.1, entry.2.description, entry.2.inputSchema)

/-- A concrete tool used to exercise the gate on explicit inputs. -/
def demoWriteTool : Tool Unit Unit :=
  { description := "Write a file"
    inputSchema := ()
    execute := some (fun _ _ => "file written") }

/-- A one-tool toolset containing `write_file`. -/
def demoTools : List (String × Tool Unit Unit) := [("write_file", demoWriteTool)]

/-- An `interruptOn` config requiring approval for every `write_file` call. -/
def demoInterrupt : List (String × ApprovalConfig Unit) :=
  [("write_file", ApprovalConfig.flag true)]

/-- The result of running the first tool of a toolset on given arguments. -/
def firstExecResult {α σ : Type} (tools : List (String × Tool α σ))
    (args : α) (options : ExecOptions) : Option String :=
  match tools with
  | [] => none
  | (_, t) :: _ => t.execute.map (fun f => f args options)

theorem wrapOneTool_surface {α σ : Type} (cb : ApprovalRequest α → Bool)
    (cfg : List (String × ApprovalConfig α)) (e : String × Tool α σ) :
    toolSurface (wrapOneTool cb cfg e) = toolSurface e := by
  rcases e with ⟨name, t⟩
  unfold wrapOneTool
  cases h : lookupToolConfig cfg name with
  | none => rfl
  | some config =>
    cases config with
    | flag b =>
      cases b with
      | false => rfl
      | true =>
        cases t.execute with
        | none => rfl
        | some f => rfl
    | dynamic o =>
      cases t.execute with
      | none => rfl
      | some f => rfl

/-- C1 counterexample: with `interruptOn = { write_file: true }` and no
`onApprovalRequest` callback, the wrapped toolset still runs the original
execute — the observed result is the tool's normal output, not the denial
sentinel, refuting the claimed default-deny. -/
theorem wrapToolsWithApproval_no_callback_not_denied :
    firstExecResult (wrapToolsWithApproval demoTools (some demoInterrupt) none) ()
        ⟨none, "approval-1"⟩ = some "file written" ∧
    some "file written" ≠ some (denialMessage "write_file") := by
  exact ⟨rfl, by decide⟩

/-- C1 (amended): when no `onApprovalRequest` callback is supplied,
`wrapToolsWithApproval` returns the toolset unchanged, so a call of a tool with
`interruptOn[t] = true` runs the original execute and no denial sentinel is
produced: default-deny is not enforced by the wrapper. -/
theorem wrapToolsWithApproval_absent_callback {α σ : Type}
    (tools : List (String × Tool α σ))
    (interruptOn : Option (List (String × ApprovalConfig α))) :
    wrapToolsWithApproval tools interruptOn none = tools := by
  cases interruptOn <;> rfl

/-- C2: with a callback present, the gated execute returns the denial text
"Tool execution denied by user. The <name> tool was not executed." whenever
approval is required and the callback answers `false` (the result does not
depend on `f`, so the original execute is not invoked), and delegates to the
original execute on the same arguments whenever the callback answers `true` or
no approval is needed. -/
theorem wrappedExecute_gate {α : Type} (name : String) (config : ApprovalConfig α)
    (f : α → ExecOptions → String) (cb : ApprovalRequest α → Bool)
    (args : α) (options : ExecOptions) :
    (checkNeedsApproval config args = true →
      cb ⟨options.freshApprovalId, jsOrString options.toolCallId options.freshApprovalId,
          name, args⟩ = false →
      wrappedExecute name config f cb args options = denialMessage name) ∧
    (checkNeedsApproval config args = true →
      cb ⟨options.freshApprovalId, jsOrString options.toolCallId options.freshApprovalId,
          name, args⟩ = true →
      wrappedExecute name config f cb args options = f args options) ∧
    (checkNeedsApproval config args = false →
      wrappedExecute name config f cb args options = f args options) := by
  refine ⟨?_, ?_, ?_⟩ <;> intro h1 <;> first
    | (intro h2; unfold wrappedExecute; simp [h1, h2])
    | (unfold wrappedExecute; simp [h1])

/-- C2 witness: the gate evaluated at concrete inputs — a denied `write_file`
call yields the sentinel, an approved one and an un-gated one yield the
original results. -/
theorem wrappedExecute_gate_witness :
    wrappedExecute "write_file" (ApprovalConfig.flag true)
        (fun (_ : Unit) _ => "file written") (fun _ => false) () ⟨none, "a1"⟩
      = denialMessage "write_file" ∧
    wrappedExecute "write_file" (ApprovalConfig.flag true)
        (fun (_ : Unit) _ => "file written") (fun _ => true) () ⟨none, "a1"⟩
      = "file written" ∧
    wrappedExecute "read_file" (ApprovalConfig.flag false)
        (fun (_ : Unit) _ => "contents") (fun _ => false) () ⟨none, "a2"⟩
      = "contents" :=
  ⟨(wrappedExecute_gate "write_file" (ApprovalConfig.flag true)
      (fun _ _ => "file written") (fun _ => false) () ⟨none, "a1"⟩).1 rfl rfl,
   (wrappedExecute_gate "write_file" (ApprovalConfig.flag true)
      (fun _ _ => "file written") (fun _ => true) () ⟨none, "a1"⟩).2.1 rfl rfl,
   (wrappedExecute_gate "read_file" (ApprovalConfig.flag false)
      (fun _ _ => "contents") (fun _ => false) () ⟨none, "a2"⟩).2.2 rfl⟩

/-- C7: wrapping a toolset with the approval gate never changes any tool's
name, description or declared input schema — the per-entry surface of the
wrapped toolset is identical to the original one. -/
theorem wrapToolsWithApproval_preserves_surface {α σ : Type}
    (tools : List (String × Tool α σ))
    (interruptOn : Option (List (String × ApprovalConfig α)))
    (onApprovalRequest : Option (ApprovalRequest α → Bool)) :
    (wrapToolsWithApproval tools interruptOn onApprovalRequest).map toolSurface
      = tools.map toolSurface := by
  cases interruptOn with
  | none => rfl
  | some cfg =>
    cases onApprovalRequest with
    | none => rfl
    | some cb =>
      show (tools.map (wrapOneTool cb cfg)).map toolSurface = tools.map toolSurface
      rw [List.map_map]
      exact List.map_congr_left (fun e _ => wrapOneTool_surface cb cfg e)

/-- C10: an `interruptOn` entry that is an object without a `shouldApprove`
function makes `checkNeedsApproval` answer `true` for every argument value, so
every call of that tool goes through the approval-request path: the gated
execute reduces to asking the callback and acting on its answer. -/
theorem checkNeedsApproval_no_shouldApprove {α : Type} (args : α)
    (name : String) (f : α → ExecOptions → String) (cb : ApprovalRequest α → Bool)
    (options : ExecOptions) :
    checkNeedsApproval (ApprovalConfig.dynamic none) args = true ∧
    wrappedExecute name (ApprovalConfig.dynamic none) f cb args options =
      (if cb ⟨options.freshApprovalId,
              jsOrString options.toolCallId options.freshApprovalId, name, args⟩ then
        f args options
      else denialMessage name) := by
  constructor
  · rfl
  · unfold wrappedExecute
    simp [checkNeedsApproval]

/-! ## Filesystem backend data model and composite (prefix-routed) backend

Modelled from the spec: the implementation file `src/backends/composite.ts` is
not part of the source snapshot (only its test file is), so the composite
backend is modelled from §4.2 of the specification — a default backend plus a
map from path prefixes ending in `/` to backends; every operation picks the
longest matching prefix and forwards the path with that prefix stripped
(keeping a leading `/`); root-level `ls` adds one synthetic directory entry per
route, root-level `glob`/`grep` union all backends with route-prefixed result
paths — and constrained by the behaviour the test file pins down. -/

structure FileData where
  content : List String
  created_at : String
  modified_at : String
deriving DecidableEq

structure FileInfo where
  path : String
  kind : String
deriving DecidableEq

structure GrepMatch where
  path : String
  line : Nat
  text : String
deriving DecidableEq

structure WriteResult where
  success : Bool
  error : Option String
deriving DecidableEq

structure EditResult where
  success : Bool
  occurrences : Nat
  error : Option String
deriving DecidableEq

/-- The uniform backend contract of §4.1, as a record of operations.
`globInfo` and `grepRaw` take the pattern first and then the path. -/
structure Backend where
  read : String → Nat → Nat → String
  readRaw : String → Option FileData
  write : String → String → WriteResult
  edit : String → String → String → Bool → EditResult
  lsInfo : String → List FileInfo
  globInfo : String → String → List FileInfo
  grepRaw : String → String → List GrepMatch

/-- Whether `p` is a literal prefix of `s` (JavaScript `s.startsWith(p)`), computed on
character lists so that it evaluates in the kernel. -/
def strIsPre (p s : String) : Bool := p.data.isPrefixOf s.data

/-- Drop the first `n` characters of a string (JavaScript `s.slice(n)`). -/
def strDropChars (s : String) (n : Nat) : String := String.mk (s.data.drop n)

/-- The path a routed backend receives: the route prefix is stripped and a
leading `/` is kept (the route ends in `/`, so dropping its full length and
prepending `/` realises `p.slice(route.length - 1)`). -/
def stripRoute (route p : String) : String := "/" ++ strDropChars p route.length

/-- Re-prefix a routed backend's internal path (which starts with `/`) with its
route prefix (which ends with `/`). -/
def joinRoute (route p : String) : String := route ++ strDropChars p 1

/-- A composite backend: a default backend plus prefix routes. -/
structure CompositeBackend where
  defaultBackend : Backend
  routes : List (String × Backend)

/-- The route with the longest prefix matching `p`, if any.  The source sorts
routes longest-first at construction and takes the first match; scanning for a
length-maximal match is the order-independent equivalent (ties are disallowed
by construction). -/
def longestRoute (routes : List (String × Backend)) (p : String) :
    Option (String × Backend) :=
  match routes with
  | [] => none
  | r :: rest =>
      match longestRoute rest p with
      | none => if strIsPre r.1 p then some r else none
      | some best =>
          if strIsPre r.1 p then
            if best.1.length < r.1.length then some r else some best
          else some best

def reprefixInfo (route : String) (fi : FileInfo) : FileInfo :=
  { fi with path := joinRoute route fi.path }

def reprefixMatch (route : String) (m : GrepMatch) : GrepMatch :=
  { m with path := joinRoute route m.path }

def CompositeBackend.read (c : CompositeBackend) (p : String)
    (offset limit : Nat) : String :=
  match longestRoute c.routes p with
  | some r => r.2.read (stripRoute r.1 p) offset limit
  | none => c.defaultBackend.read p offset limit

def CompositeBackend.readRaw (c : CompositeBackend) (p : String) :
    Option FileData :=
  match longestRoute c.routes p with
  | some r => r.2.readRaw (stripRoute r.1 p)
  | none => c.defaultBackend.readRaw p

def CompositeBackend.write (c : CompositeBackend) (p content : String) :
    WriteResult :=
  match longestRoute c.routes p with
  | some r => r.2.write (stripRoute r.1 p) content
  | none => c.defaultBackend.write p content

def CompositeBackend.edit (c : CompositeBackend) (p oldStr newStr : String)
    (replaceAll : Bool) : EditResult :=
  match longestRoute c.routes p with
  | some r => r.2.edit (stripRoute r.1 p) oldStr newStr replaceAll
  | none => c.defaultBackend.edit p oldStr newStr replaceAll

def CompositeBackend.lsInfo (c : CompositeBackend) (p : String) :
    List FileInfo :=
  match longestRoute c.routes p with
  | some r => (r.2.lsInfo (stripRoute r.1 p)).map (reprefixInfo r.1)
  | none =>
      if p = "/" then
        c.defaultBackend.lsInfo "/" ++
          c.routes.map (fun r => { path := r.1, kind := "dir" })
      else c.defaultBackend.lsInfo p

def CompositeBackend.globInfo (c : CompositeBackend) (pattern p : String) :
    List FileInfo :=
  match longestRoute c.routes p with
  | some r => (r.2.globInfo pattern (stripRoute r.1 p)).map (reprefixInfo r.1)
  | none =>
      if p = "/" then
        c.defaultBackend.globInfo pattern "/" ++
          c.routes.flatMap (fun r => (r.2.globInfo pattern "/").map (reprefixInfo r.1))
      else c.defaultBackend.globInfo pattern p

def CompositeBackend.grepRaw (c : CompositeBackend) (pattern p : String) :
    List GrepMatch :=
  match longestRoute c.routes p with
  | some r => (r.2.grepRaw pattern (stripRoute r.1 p)).map (reprefixMatch r.1)
  | none =>
      if p = "/" then
        c.defaultBackend.grepRaw pattern "/" ++
          c.routes.flatMap (fun r => (r.2.grepRaw pattern "/").map (reprefixMatch r.1))
      else c.defaultBackend.grepRaw pattern p

theorem strDataAppend (a b : String) : (a ++ b).data = a.data ++ b.data := by
  cases a
  cases b
  rfl

theorem listIsPre_append_self (a b : List Char) : a.isPrefixOf (a ++ b) = true := by
  induction a with
  | nil => simp [List.isPrefixOf]
  | cons x xs ih => simp [List.isPrefixOf, ih]

/-- Any string of the form `pre ++ rest` has `pre` as a literal prefix. -/
theorem strIsPre_append (pre rest : String) : strIsPre pre (pre ++ rest) = true := by
  unfold strIsPre
  rw [strDataAppend]
  exact listIsPre_append_self pre.data rest.data

theorem longestRoute_mem (routes : List (String × Backend)) (p : String)
    (r : String × Backend) (h : longestRoute routes p = some r) :
    r ∈ routes ∧ strIsPre r.1 p = true := by
  induction routes with
  | nil => simp [longestRoute] at h
  | cons head rest ih =>
    unfold longestRoute at h
    cases hrest : longestRoute rest p with
    | none =>
      rw [hrest] at h
      by_cases hp : strIsPre head.1 p = true
      · simp [hp] at h
        subst h
        exact ⟨List.mem_cons_self head rest, hp⟩
      · simp [hp] at h
    | some best =>
      rw [hrest] at h
      by_cases hp : strIsPre head.1 p = true
      · simp [hp] at h
        by_cases hl : best.1.length < head.1.length
        · simp [hl] at h
          subst h
          exact ⟨List.mem_cons_self head rest, hp⟩
        · simp [hl] at h
          subst h
          rcases ih hrest with ⟨hmem, hpre⟩
          exact ⟨List.mem_cons_of_mem head hmem, hpre⟩
      · simp [hp] at h
        subst h
        rcases ih hrest with ⟨hmem, hpre⟩
        exact ⟨List.mem_cons_of_mem head hmem, hpre⟩

theorem longestRoute_none (routes : List (String × Backend)) (p : String)
    (h : longestRoute routes p = none) :
    ∀ r ∈ routes, strIsPre r.1 p = false := by
  induction routes with
  | nil => intro r hr; cases hr
  | cons head rest ih =>
    unfold longestRoute at h
    cases hrest : longestRoute rest p with
    | none =>
      rw [hrest] at h
      intro r hr
      by_cases hp : strIsPre head.1 p = true
      · simp [hp] at h
      · rcases List.mem_cons.mp hr with hEq | hMem
        · subst hEq
          exact Bool.eq_false_iff.mpr (fun hc => hp hc)
        · exact ih hrest r hMem
    | some best =>
      rw [hrest] at h
      by_cases hp : strIsPre head.1 p = true
      · by_cases hl : best.1.length < head.1.length
        · simp [hp, hl] at h
        · simp [hp, hl] at h
      · simp [hp] at h

theorem longestRoute_maximal (routes : List (String × Backend)) (p : String) :
    ∀ r, longestRoute routes p = some r →
      ∀ r' ∈ routes, strIsPre r'.1 p = true → r'.1.length ≤ r.1.length := by
  induction routes with
  | nil => intro r h; simp [longestRoute] at h
  | cons head rest ih =>
    intro r h r' hr' hpre'
    unfold longestRoute at h
    cases hrest : longestRoute rest p with
    | none =>
      rw [hrest] at h
      by_cases hp : strIsPre head.1 p = true
      · simp [hp] at h
        subst h
        rcases List.mem_cons.mp hr' with hEq | hMem
        · subst hEq; exact Nat.le_refl _
        · exact absurd hpre' (by simp [longestRoute_none rest p hrest r' hMem])
      · simp [hp] at h
    | some best =>
      rw [hrest] at h
      by_cases hp : strIsPre head.1 p = true
      · by_cases hl : best.1.length < head.1.length
        · simp [hp, hl] at h
          subst h
          rcases List.mem_cons.mp hr' with hEq | hMem
          · subst hEq; exact Nat.le_refl _
          · exact Nat.le_trans (ih best hrest r' hMem hpre') (Nat.le_of_lt hl)
        · simp [hp, hl] at h
          subst h
          rcases List.mem_cons.mp hr' with hEq | hMem
          · subst hEq; exact Nat.le_of_not_lt hl
          · exact ih best hrest r' hMem hpre'
      · simp [hp] at h
        subst h
        rcases List.mem_cons.mp hr' with hEq | hMem
        · subst hEq
          exact absurd hpre' (by simp [hp])
        · exact ih best hrest r' hMem hpre'

theorem longestRoute_isSome (routes : List (String × Backend)) (p : String)
    (r0 : String × Backend) (hr0 : r0 ∈ routes) (hpre : strIsPre r0.1 p = true) :
    ∃ r, longestRoute routes p = some r := by
  cases h : longestRoute routes p with
  | none => exact absurd hpre (by simp [longestRoute_none routes p h r0 hr0])
  | some r => exact ⟨r, rfl⟩

/-- C3: on a composite backend every operation is forwarded to the backend of
the longest route prefix matching the path, which receives the path with that
prefix stripped and a leading `/` kept; paths matching no route go to the
default backend unchanged (for `ls`/`glob`/`grep` away from the root, whose
root behaviour aggregates — see the root-aggregation theorem). -/
theorem composite_longest_route_forwarding (c : CompositeBackend) (p : String)
    (offset limit : Nat) (content oldStr newStr : String) (replaceAll : Bool)
    (pattern : String) :
    ((∃ r0 ∈ c.routes, strIsPre r0.1 p = true) →
      ∃ r, longestRoute c.routes p = some r ∧ r ∈ c.routes ∧
        strIsPre r.1 p = true ∧
        (∀ r' ∈ c.routes, strIsPre r'.1 p = true → r'.1.length ≤ r.1.length) ∧
        strIsPre "/" (stripRoute r.1 p) = true ∧
        c.read p offset limit = r.2.read (stripRoute r.1 p) offset limit ∧
        c.readRaw p = r.2.readRaw (stripRoute r.1 p) ∧
        c.write p content = r.2.write (stripRoute r.1 p) content ∧
        c.edit p oldStr newStr replaceAll
          = r.2.edit (stripRoute r.1 p) oldStr newStr replaceAll ∧
        c.lsInfo p = (r.2.lsInfo (stripRoute r.1 p)).map (reprefixInfo r.1) ∧
        c.globInfo pattern p
          = (r.2.globInfo pattern (stripRoute r.1 p)).map (reprefixInfo r.1) ∧
        c.grepRaw pattern p
          = (r.2.grepRaw pattern (stripRoute r.1 p)).map (reprefixMatch r.1)) ∧
    (longestRoute c.routes p = none →
      c.read p offset limit = c.defaultBackend.read p offset limit ∧
      c.readRaw p = c.defaultBackend.readRaw p ∧
      c.write p content = c.defaultBackend.write p content ∧
      c.edit p oldStr newStr replaceAll
        = c.defaultBackend.edit p oldStr newStr replaceAll ∧
      (p ≠ "/" →
        c.lsInfo p = c.defaultBackend.lsInfo p ∧
        c.globInfo pattern p = c.defaultBackend.globInfo pattern p ∧
        c.grepRaw pattern p = c.defaultBackend.grepRaw pattern p)) := by
  constructor
  · rintro ⟨r0, hr0, hpre⟩
    rcases longestRoute_isSome c.routes p r0 hr0 hpre with ⟨r, hmatch⟩
    rcases longestRoute_mem c.routes p r hmatch with ⟨hmem, hrpre⟩
    refine ⟨r, hmatch, hmem, hrpre, longestRoute_maximal c.routes p r hmatch,
      strIsPre_append "/" (strDropChars p r.1.length), ?_, ?_, ?_, ?_, ?_, ?_, ?_⟩ <;>
      simp [CompositeBackend.read, CompositeBackend.readRaw, CompositeBackend.write,
        CompositeBackend.edit, CompositeBackend.lsInfo, CompositeBackend.globInfo,
        CompositeBackend.grepRaw, hmatch]
  · intro hnone
    refine ⟨?_, ?_, ?_, ?_, ?_⟩
    · simp [CompositeBackend.read, hnone]
    · simp [CompositeBackend.readRaw, hnone]
    · simp [CompositeBackend.write, hnone]
    · simp [CompositeBackend.edit, hnone]
    · intro hnp
      refine ⟨?_, ?_, ?_⟩
      · simp [CompositeBackend.lsInfo, hnone, hnp]
      · simp [CompositeBackend.globInfo, hnone, hnp]
      · simp [CompositeBackend.grepRaw, hnone, hnp]

/-- A backend whose operations tag their results, used to exercise the
composite routing on explicit inputs. -/
def tagBackend (tag : String) : Backend :=
  { read := fun p _ _ => tag ++ " read " ++ p
    readRaw := fun _ => none
    write := fun _ _ => { success := true, error := none }
    edit := fun _ _ _ _ => { success := true, occurrences := 1, error := none }
    lsInfo := fun p => [{ path := p, kind := "file" }]
    globInfo := fun _ _ => [{ path := "/" ++ tag ++ ".txt", kind := "file" }]
    grepRaw := fun _ _ => [{ path := "/" ++ tag ++ ".txt", line := 1, text := tag }] }

/-- A concrete composite with nested routes `/a/` and `/a/b/`. -/
def demoComposite : CompositeBackend :=
  { defaultBackend := tagBackend "default"
    routes := [("/a/", tagBackend "A"), ("/a/b/", tagBackend "B")] }

/-- C3 witness: the forwarding theorem applied at `/a/b/file.txt` (matched by
both `/a/` and `/a/b/`, so the longest route wins) and at `/other.txt`
(matched by no route), with both hypotheses discharged. -/
theorem composite_longest_route_forwarding_witness :
    (∃ r, longestRoute demoComposite.routes "/a/b/file.txt" = some r ∧
      r ∈ demoComposite.routes ∧ strIsPre r.1 "/a/b/file.txt" = true ∧
      (∀ r' ∈ demoComposite.routes, strIsPre r'.1 "/a/b/file.txt" = true →
        r'.1.length ≤ r.1.length) ∧
      strIsPre "/" (stripRoute r.1 "/a/b/file.txt") = true ∧
      demoComposite.read "/a/b/file.txt" 0 10
        = r.2.read (stripRoute r.1 "/a/b/file.txt") 0 10 ∧
      demoComposite.readRaw "/a/b/file.txt"
        = r.2.readRaw (stripRoute r.1 "/a/b/file.txt") ∧
      demoComposite.write "/a/b/file.txt" "content"
        = r.2.write (stripRoute r.1 "/a/b/file.txt") "content" ∧
      demoComposite.edit "/a/b/file.txt" "x" "y" false
        = r.2.edit (stripRoute r.1 "/a/b/file.txt") "x" "y" false ∧
      demoComposite.lsInfo "/a/b/file.txt"
        = (r.2.lsInfo (stripRoute r.1 "/a/b/file.txt")).map (reprefixInfo r.1) ∧
      demoComposite.globInfo "hit" "/a/b/file.txt"
        = (r.2.globInfo "hit" (stripRoute r.1 "/a/b/file.txt")).map
            (reprefixInfo r.1) ∧
      demoComposite.grepRaw "hit" "/a/b/file.txt"
        = (r.2.grepRaw "hit" (stripRoute r.1 "/a/b/file.txt")).map
            (reprefixMatch r.1)) ∧
    (demoComposite.read "/other.txt" 0 10
        = demoComposite.defaultBackend.read "/other.txt" 0 10 ∧
      demoComposite.readRaw "/other.txt"
        = demoComposite.defaultBackend.readRaw "/other.txt" ∧
      demoComposite.write "/other.txt" "content"
        = demoComposite.defaultBackend.write "/other.txt" "content" ∧
      demoComposite.edit "/other.txt" "x" "y" false
        = demoComposite.defaultBackend.edit "/other.txt" "x" "y" false ∧
      ("/other.txt" ≠ "/" →
        demoComposite.lsInfo "/other.txt"
          = demoComposite.defaultBackend.lsInfo "/other.txt" ∧
        demoComposite.globInfo "hit" "/other.txt"
          = demoComposite.defaultBackend.globInfo "hit" "/other.txt" ∧
        demoComposite.grepRaw "hit" "/other.txt"
          = demoComposite.defaultBackend.grepRaw "hit" "/other.txt")) :=
  ⟨(composite_longest_route_forwarding demoComposite "/a/b/file.txt" 0 10
      "content" "x" "y" false "hit").1
      ⟨("/a/", tagBackend "A"), List.mem_cons_self _ _, rfl⟩,
   (composite_longest_route_forwarding demoComposite "/other.txt" 0 10
      "content" "x" "y" false "hit").2 rfl⟩

/-- C5: at the root, `ls` returns the default backend's entries concatenated
with exactly one synthetic directory entry per registered route, and `grep` and
`glob` return the default backend's results together with every routed
backend's results, each routed result path re-prefixed with its route; every
result is therefore either a default-backend result or carries a route prefix,
so no mounted backend's internal (unprefixed) path appears. -/
theorem composite_root_aggregation (c : CompositeBackend) (pattern : String)
    (hroot : longestRoute c.routes "/" = none) :
    c.lsInfo "/" = c.defaultBackend.lsInfo "/" ++
        c.routes.map (fun r => { path := r.1, kind := "dir" }) ∧
    c.globInfo pattern "/" = c.defaultBackend.globInfo pattern "/" ++
        c.routes.flatMap (fun r => (r.2.globInfo pattern "/").map (reprefixInfo r.1)) ∧
    c.grepRaw pattern "/" = c.defaultBackend.grepRaw pattern "/" ++
        c.routes.flatMap (fun r => (r.2.grepRaw pattern "/").map (reprefixMatch r.1)) ∧
    (∀ fi ∈ c.lsInfo "/", fi ∈ c.defaultBackend.lsInfo "/" ∨
        ∃ r ∈ c.routes, fi = { path := r.1, kind := "dir" }) ∧
    (∀ fi ∈ c.globInfo pattern "/", fi ∈ c.defaultBackend.globInfo pattern "/" ∨
        ∃ r ∈ c.routes, ∃ fi0 ∈ r.2.globInfo pattern "/",
          fi = reprefixInfo r.1 fi0 ∧ strIsPre r.1 fi.path = true) ∧
    (∀ m ∈ c.grepRaw pattern "/", m ∈ c.defaultBackend.grepRaw pattern "/" ∨
        ∃ r ∈ c.routes, ∃ m0 ∈ r.2.grepRaw pattern "/",
          m = reprefixMatch r.1 m0 ∧ strIsPre r.1 m.path = true) := by
  have hls : c.lsInfo "/" = c.defaultBackend.lsInfo "/" ++
      c.routes.map (fun r => { path := r.1, kind := "dir" }) := by
    simp [CompositeBackend.lsInfo, hroot]
  have hglob : c.globInfo pattern "/" = c.defaultBackend.globInfo pattern "/" ++
      c.routes.flatMap (fun r => (r.2.globInfo pattern "/").map (reprefixInfo r.1)) := by
    simp [CompositeBackend.globInfo, hroot]
  have hgrep : c.grepRaw pattern "/" = c.defaultBackend.grepRaw pattern "/" ++
      c.routes.flatMap (fun r => (r.2.grepRaw pattern "/").map (reprefixMatch r.1)) := by
    simp [CompositeBackend.grepRaw, hroot]
  refine ⟨hls, hglob, hgrep, ?_, ?_, ?_⟩
  · intro fi hfi
    rw [hls] at hfi
    rcases List.mem_append.mp hfi with hdef | hsyn
    · exact Or.inl hdef
    · rcases List.mem_map.mp hsyn with ⟨r, hr, hEq⟩
      exact Or.inr ⟨r, hr, hEq.symm⟩
  · intro fi hfi
    rw [hglob] at hfi
    rcases List.mem_append.mp hfi with hdef | hrouted
    · exact Or.inl hdef
    · rcases List.mem_flatMap.mp hrouted with ⟨r, hr, hin⟩
      rcases List.mem_map.mp hin with ⟨fi0, hfi0, hEq⟩
      refine Or.inr ⟨r, hr, fi0, hfi0, hEq.symm, ?_⟩
      rw [← hEq]
      exact strIsPre_append r.1 (strDropChars fi0.path 1)
  · intro m hm
    rw [hgrep] at hm
    rcases List.mem_append.mp hm with hdef | hrouted
    · exact Or.inl hdef
    · rcases List.mem_flatMap.mp hrouted with ⟨r, hr, hin⟩
      rcases List.mem_map.mp hin with ⟨m0, hm0, hEq⟩
      refine Or.inr ⟨r, hr, m0, hm0, hEq.symm, ?_⟩
      rw [← hEq]
      exact strIsPre_append r.1 (strDropChars m0.path 1)

/-- C5 witness: the root-aggregation theorem applied to the concrete composite
with routes `/a/` and `/a/b/` (neither matches `/`). -/
theorem composite_root_aggregation_witness :
    demoComposite.lsInfo "/" = demoComposite.defaultBackend.lsInfo "/" ++
        demoComposite.routes.map (fun r => { path := r.1, kind := "dir" }) ∧
    demoComposite.globInfo "hit" "/" = demoComposite.defaultBackend.globInfo "hit" "/" ++
        demoComposite.routes.flatMap
          (fun r => (r.2.globInfo "hit" "/").map (reprefixInfo r.1)) ∧
    demoComposite.grepRaw "hit" "/" = demoComposite.defaultBackend.grepRaw "hit" "/" ++
        demoComposite.routes.flatMap
          (fun r => (r.2.grepRaw "hit" "/").map (reprefixMatch r.1)) ∧
    (∀ fi ∈ demoComposite.lsInfo "/", fi ∈ demoComposite.defaultBackend.lsInfo "/" ∨
        ∃ r ∈ demoComposite.routes, fi = { path := r.1, kind := "dir" }) ∧
    (∀ fi ∈ demoComposite.globInfo "hit" "/",
        fi ∈ demoComposite.defaultBackend.globInfo "hit" "/" ∨
        ∃ r ∈ demoComposite.routes, ∃ fi0 ∈ r.2.globInfo "hit" "/",
          fi = reprefixInfo r.1 fi0 ∧ strIsPre r.1 fi.path = true) ∧
    (∀ m ∈ demoComposite.grepRaw "hit" "/",
        m ∈ demoComposite.defaultBackend.grepRaw "hit" "/" ∨
        ∃ r ∈ demoComposite.routes, ∃ m0 ∈ r.2.grepRaw "hit" "/",
          m = reprefixMatch r.1 m0 ∧ strIsPre r.1 m.path = true) :=
  composite_root_aggregation demoComposite "hit" rfl

/-! ## Backend string utilities

Modelled from the spec: `src/backends/utils.ts` is not part of the source
snapshot (only its test file is).  `performStringReplacement` and
`formatReadResponse` are modelled from §4.1 of the specification and pinned by
the expectations in `test/backends/utils.test.ts`: literal non-regex
replacement, failure messages naming the search string and the occurrence
count, width-6 right-aligned line numbers with a tab, chunking of lines longer
than about 2,000 characters as `N.1`, `N.2`, …, the empty-file reminder, and
the offset-exceeds error naming the offending offset.  String scanning is done
on character lists so everything evaluates in the kernel. -/

/-- Count of non-overlapping, left-to-right literal occurrences of `sep` in a
character list (`content.split(oldStr).length - 1`).  The fuel argument is the
list length; every step consumes at least one character. -/
def countOccurData (sep : List Char) : Nat → List Char → Nat
  | 0, _ => 0
  | Nat.succ fuel, l =>
      match l with
      | [] => 0
      | c :: rest =>
          if sep.isPrefixOf (c :: rest) then
            1 + countOccurData sep fuel ((c :: rest).drop sep.length)
          else countOccurData sep fuel rest

/-- Number of literal occurrences of `oldStr` in `content`. -/
def countOccurrences (content oldStr : String) : Nat :=
  if oldStr.data = [] then 0
  else countOccurData oldStr.data content.data.length content.data

/-- Literal replacement: the first occurrence only (`content.replace`) when
`all = false`, every non-overlapping occurrence (`split`/`join`) when
`all = true`. -/
def replaceData (sep rep : List Char) (all : Bool) : Nat → List Char → List Char
  | 0, l => l
  | Nat.succ fuel, l =>
      match l with
      | [] => []
      | c :: rest =>
          if sep.isPrefixOf (c :: rest) then
            if all then rep ++ replaceData sep rep all fuel ((c :: rest).drop sep.length)
            else rep ++ (c :: rest).drop sep.length
          else c :: replaceData sep rep all fuel rest

/-- The error text for a search string that occurs more than once while
`replace_all` is false; it states the occurrence count. -/
def multipleOccurrencesMessage (oldStr : String) (count : Nat) : String :=
  "Error: String '" ++ oldStr ++ "' appears " ++ toString count ++
    " times in the file. Use replace_all=true to replace all occurrences, or provide more surrounding context to make the string unique."

/-- Function `performStringReplacement` from `backends/utils.ts`: literal substring
replacement returning the new content and the occurrence count, or an error
string when the search string is absent or is ambiguous without
`replace_all`. -/
def performStringReplacement (content oldStr newStr : String)
    (replaceAll : Bool) : Except String (String × Nat) :=
  let count := countOccurrences content oldStr
  if count = 0 then
    Except.error ("Error: String not found in file: '" ++ oldStr ++ "'")
  else if replaceAll then
    Except.ok
      (String.mk (replaceData oldStr.data newStr.data true content.data.length
        content.data), count)
  else if count = 1 then
    Except.ok
      (String.mk (replaceData oldStr.data newStr.data false content.data.length
        content.data), 1)
  else
    Except.error (multipleOccurrencesMessage oldStr count)

/-- C8: with `replaceAll = false` the edit fails with an error stating the
occurrence count whenever the search string occurs more than once, fails with
the not-found error on zero occurrences, and succeeds — performing literal
first-occurrence replacement — exactly when the string occurs once. -/
theorem performStringReplacement_unique_gate (content oldStr newStr : String) :
    (countOccurrences content oldStr = 0 →
      performStringReplacement content oldStr newStr false
        = Except.error ("Error: String not found in file: '" ++ oldStr ++ "'")) ∧
    (∀ n, countOccurrences content oldStr = n → 2 ≤ n →
      performStringReplacement content oldStr newStr false
        = Except.error (multipleOccurrencesMessage oldStr n)) ∧
    (countOccurrences content oldStr = 1 →
      performStringReplacement content oldStr newStr false
        = Except.ok (String.mk (replaceData oldStr.data newStr.data false
            content.data.length content.data), 1)) ∧
    ((∃ res, performStringReplacement content oldStr newStr false
        = Except.ok res) ↔ countOccurrences content oldStr = 1) := by
  refine ⟨?_, ?_, ?_, ?_⟩
  · intro h0
    simp [performStringReplacement, h0]
  · intro n hn h2
    have hne0 : ¬ n = 0 := by omega
    have hne1 : ¬ n = 1 := by omega
    simp [performStringReplacement, hn, hne0, hne1]
  · intro h1
    simp [performStringReplacement, h1]
  · constructor
    · rintro ⟨res, hres⟩
      by_cases h0 : countOccurrences content oldStr = 0
      · simp [performStringReplacement, h0] at hres
      · by_cases h1 : countOccurrences content oldStr = 1
        · exact h1
        · simp [performStringReplacement, h0, h1] at hres
    · intro h1
      refine ⟨(String.mk (replaceData oldStr.data newStr.data false
        content.data.length content.data), 1), ?_⟩
      simp [performStringReplacement, h1]

/-- C8 witness: the gate at concrete inputs — a missing string fails with the
exact not-found text, a string occurring twice fails with the occurrence-count
error, and a unique string with regex metacharacters is replaced literally. -/
theorem performStringReplacement_unique_gate_witness :
    performStringReplacement "hello world" "zzz" "hi" false
      = Except.error "Error: String not found in file: 'zzz'" ∧
    performStringReplacement "a b a b" "a" "x" false
      = Except.error (multipleOccurrencesMessage "a" 2) ∧
    performStringReplacement "price: $100" "$100" "$200" false
      = Except.ok ("price: $200", 1) :=
  ⟨(performStringReplacement_unique_gate "hello world" "zzz" "hi").1 rfl,
   (performStringReplacement_unique_gate "a b a b" "a" "x").2.1 2 rfl (by omega),
   by
     rw [(performStringReplacement_unique_gate "price: $100" "$100" "$200").2.2.1 rfl]
     rfl⟩

/-- Width of the right-aligned line-number column (`LINE_NUMBER_WIDTH`). -/
def LINE_NUMBER_WIDTH : Nat := 6

/-- Chunk size for splitting long lines (the spec gives "≈ 2,000 characters"). -/
def LINE_CHUNK_SIZE : Nat := 2000

/-- A line label padded on the left with spaces to the number width
(`label.padStart(LINE_NUMBER_WIDTH)`). -/
def padLineLabel (label : String) : String :=
  String.mk (List.replicate (LINE_NUMBER_WIDTH - label.length) ' ') ++ label

/-- Split a character list into chunks of at most `LINE_CHUNK_SIZE`; the fuel
argument is the list length (each step consumes `LINE_CHUNK_SIZE ≥ 1`
characters). -/
def chunkGo : Nat → List Char → List (List Char)
  | 0, l => [l]
  | Nat.succ fuel, l =>
      if l.length ≤ LINE_CHUNK_SIZE then [l]
      else l.take LINE_CHUNK_SIZE :: chunkGo fuel (l.drop LINE_CHUNK_SIZE)

/-- The chunks of one logical line. -/
def chunkLine (line : String) : List (List Char) :=
  chunkGo line.data.length line.data

/-- Labels the continuation chunks of line `n` as `n.1`, `n.2`, …. -/
def numberTail (n : Nat) : Nat → List (List Char) → List String
  | _, [] => []
  | i, c :: cs =>
      (padLineLabel (toString n ++ "." ++ toString i) ++ "\t" ++ String.mk c) ::
        numberTail n (i + 1) cs

/-- The rendered rows for logical line number `n`: the first chunk is labelled
`n`, continuation chunks `n.1`, `n.2`, …. -/
def numberedChunks (n : Nat) (line : String) : List String :=
  match chunkLine line with
  | [] => []
  | c :: cs =>
      (padLineLabel (toString n) ++ "\t" ++ String.mk c) :: numberTail n 1 cs

/-- The rendered rows of all lines, numbering from `n`. -/
def numberLines (n : Nat) : List String → List (List String)
  | [] => []
  | line :: rest => numberedChunks n line :: numberLines (n + 1) rest

/-- Function `formatContentWithLineNumbers` from `backends/utils.ts`: each line prefixed
with a right-aligned line number of width 6 followed by a tab, long lines split
into `N.1`, `N.2`, … chunks, rows joined with newlines. -/
def formatContentWithLineNumbers (lines : List String) (startLine : Nat) : String :=
  String.intercalate "\n" (numberLines startLine lines).flatten

/-- The literal returned for files with empty contents. -/
def SYSTEM_REMINDER_FILE_EMPTY : String :=
  "System reminder: File exists but has empty contents"

/-- Newline-join of the stored line array. -/
def fileDataToString (fd : FileData) : String :=
  String.intercalate "\n" fd.content

/-- The error returned when the requested offset is at or past the end of the
file; it names the offending offset value. -/
def offsetExceedsMessage (offset total : Nat) : String :=
  "Error: Line offset " ++ toString offset ++ " exceeds file length (" ++
    toString total ++ " lines)"

/-- Function `formatReadResponse` from `backends/utils.ts`: the empty-contents reminder
for empty files, the offset error when `offset` is not below the line count,
and otherwise the window of `limit` lines starting at `offset`, formatted with
line numbers starting at `offset + 1`. -/
def formatReadResponse (fd : FileData) (offset limit : Nat) : String :=
  if fileDataToString fd = "" then SYSTEM_REMINDER_FILE_EMPTY
  else if fd.content.length ≤ offset then
    offsetExceedsMessage offset fd.content.length
  else
    formatContentWithLineNumbers ((fd.content.drop offset).take limit) (offset + 1)

/-- The claim's description of the read window, written from the spec's words:
exactly the lines `offset` … `offset + limit - 1`, each prefixed with a
right-aligned width-6 line number and a tab, numbered from `offset + 1` (no
chunk splitting). -/
def specNumberedLines (n : Nat) : List String → List String
  | [] => []
  | line :: rest =>
      (padLineLabel (toString n) ++ "\t" ++ line) :: specNumberedLines (n + 1) rest

/-- The claim's read result, written from the spec's words. -/
def specReadWindow (fd : FileData) (offset limit : Nat) : String :=
  String.intercalate "\n"
    (specNumberedLines (offset + 1) ((fd.content.drop offset).take limit))

theorem chunkGo_small (fuel : Nat) (l : List Char)
    (h : l.length ≤ LINE_CHUNK_SIZE) : chunkGo fuel l = [l] := by
  cases fuel with
  | zero => rfl
  | succ n => simp [chunkGo, h]

theorem chunkLine_short (line : String) (h : line.length ≤ LINE_CHUNK_SIZE) :
    chunkLine line = [line.data] :=
  chunkGo_small line.data.length line.data h

theorem numberedChunks_short (n : Nat) (line : String)
    (h : line.length ≤ LINE_CHUNK_SIZE) :
    numberedChunks n line = [padLineLabel (toString n) ++ "\t" ++ line] := by
  unfold numberedChunks
  rw [chunkLine_short line h]
  rfl

theorem numberLines_short (lines : List String) :
    ∀ n, (∀ line ∈ lines, line.length ≤ LINE_CHUNK_SIZE) →
      (numberLines n lines).flatten = specNumberedLines n lines := by
  induction lines with
  | nil => intro n _; rfl
  | cons line rest ih =>
    intro n h
    have hline := h line (List.mem_cons_self _ _)
    have hrest : ∀ l ∈ rest, l.length ≤ LINE_CHUNK_SIZE :=
      fun l hl => h l (List.mem_cons_of_mem _ hl)
    show (numberedChunks n line :: numberLines (n + 1) rest).flatten = _
    rw [List.flatten_cons, numberedChunks_short n line hline, ih (n + 1) hrest]
    rfl

/-- C9 (amended): for a file with non-empty contents and `offset` below the
line count, provided every line in the window is at most the 2,000-character
chunk size, `read` returns exactly the lines `offset` … `offset + limit - 1`,
each prefixed with a right-aligned width-6 line number and a tab, numbered from
`offset + 1` (lines longer than the chunk size are instead split into chunks
labelled `N.1`, `N.2`, …); when `offset` is at or past the line count the
result is an error string naming the offending offset value. -/
theorem formatReadResponse_window (fd : FileData) (offset limit : Nat) :
    (fileDataToString fd ≠ "" → offset < fd.content.length →
      (∀ line ∈ (fd.content.drop offset).take limit,
        line.length ≤ LINE_CHUNK_SIZE) →
      formatReadResponse fd offset limit = specReadWindow fd offset limit) ∧
    (fileDataToString fd ≠ "" → fd.content.length ≤ offset →
      formatReadResponse fd offset limit
        = offsetExceedsMessage offset fd.content.length) := by
  constructor
  · intro hne hoff hshort
    unfold formatReadResponse
    rw [if_neg hne, if_neg (by omega : ¬ fd.content.length ≤ offset)]
    unfold formatContentWithLineNumbers specReadWindow
    rw [numberLines_short ((fd.content.drop offset).take limit) (offset + 1) hshort]
  · intro hne hoff
    unfold formatReadResponse
    rw [if_neg hne, if_pos hoff]

/-- Demo file with five short lines. -/
def fiveLineFile : FileData :=
  { content := ["a", "b", "c", "d", "e"]
    created_at := "2024-01-01T00:00:00.000Z"
    modified_at := "2024-01-01T00:00:00.000Z" }

/-- C9 witness: reading two lines at offset 2 of a five-line file yields lines
3 and 4 with their line numbers, and offset 10 yields the offset error; the
formatted window is the literal string the test file expects. -/
theorem formatReadResponse_window_witness :
    formatReadResponse fiveLineFile 2 2 = specReadWindow fiveLineFile 2 2 ∧
    specReadWindow fiveLineFile 2 2 = "     3\tc\n     4\td" ∧
    formatReadResponse fiveLineFile 10 10 = offsetExceedsMessage 10 5 :=
  ⟨(formatReadResponse_window fiveLineFile 2 2).1 (by decide) (by decide)
      (by decide),
   by decide,
   (formatReadResponse_window fiveLineFile 10 10).2 (by decide) (by decide)⟩

/-- A single line one character longer than the chunk size. -/
def longLine : String := String.mk (List.replicate (LINE_CHUNK_SIZE + 1) 'a')

/-- A file containing only the long line. -/
def longFile : FileData :=
  { content := [longLine], created_at := "t0", modified_at := "t0" }

theorem strExt {a b : String} (h : a.data = b.data) : a = b := by
  cases a
  cases b
  exact congrArg String.mk h

theorem mem_data_append (ch : Char) (a b : String) :
    ch ∈ (a ++ b).data ↔ ch ∈ a.data ∨ ch ∈ b.data := by
  rw [strDataAppend]
  exact List.mem_append

theorem intercalate_pair (a b : String) :
    String.intercalate "\n" [a, b] = a ++ "\n" ++ b := rfl

theorem intercalate_single (a : String) :
    String.intercalate "\n" [a] = a := rfl

theorem longLine_ne_empty : longLine ≠ "" := by
  intro h
  have := congrArg (fun s => s.data.length) h
  simp [longLine] at this

theorem chunkLine_longLine :
    chunkLine longLine
      = [List.replicate LINE_CHUNK_SIZE 'a', List.replicate 1 'a'] := by
  have h1 : (List.replicate (LINE_CHUNK_SIZE + 1) 'a').length = LINE_CHUNK_SIZE + 1 := by
    simp
  show chunkGo (List.replicate (LINE_CHUNK_SIZE + 1) 'a').length
      (List.replicate (LINE_CHUNK_SIZE + 1) 'a') = _
  rw [h1]
  show chunkGo (Nat.succ LINE_CHUNK_SIZE) (List.replicate (LINE_CHUNK_SIZE + 1) 'a') = _
  unfold chunkGo
  rw [if_neg (by rw [h1]; omega)]
  rw [List.take_replicate, List.drop_replicate]
  have hmin : min LINE_CHUNK_SIZE (LINE_CHUNK_SIZE + 1) = LINE_CHUNK_SIZE := by omega
  have hsub : LINE_CHUNK_SIZE + 1 - LINE_CHUNK_SIZE = 1 := by omega
  rw [hmin, hsub, chunkGo_small LINE_CHUNK_SIZE _ (by decide)]

/-- C9 counterexample: on a file whose single line has 2,001 characters, the
formatted read splits the line into two numbered chunks (`1` and `1.1`), so it
is not the single plainly-numbered line the claim describes — the model output
contains a newline while the claimed output does not. -/
theorem formatReadResponse_long_line_chunked :
    formatReadResponse longFile 0 1 ≠ specReadWindow longFile 0 1 := by
  have hfd : fileDataToString longFile = longLine := intercalate_single longLine
  have hmodel : formatReadResponse longFile 0 1
      = (padLineLabel (toString 1) ++ "\t" ++
          String.mk (List.replicate LINE_CHUNK_SIZE 'a')) ++ "\n" ++
        (padLineLabel (toString 1 ++ "." ++ toString 1) ++ "\t" ++
          String.mk (List.replicate 1 'a')) := by
    unfold formatReadResponse
    rw [hfd, if_neg longLine_ne_empty, if_neg (by simp [longFile])]
    show formatContentWithLineNumbers [longLine] 1 = _
    unfold formatContentWithLineNumbers
    show String.intercalate "\n" (numberedChunks 1 longLine :: numberLines 2 []).flatten = _
    unfold numberedChunks
    rw [chunkLine_longLine]
    exact intercalate_pair _ _
  have hspec : specReadWindow longFile 0 1
      = padLineLabel (toString 1) ++ "\t" ++ longLine := by
    unfold specReadWindow
    show String.intercalate "\n"
        ((padLineLabel (toString 1) ++ "\t" ++ longLine) :: specNumberedLines 2 []) = _
    exact intercalate_single _
  intro heq
  have hnl : '\n' ∈ (specReadWindow longFile 0 1).data := by
    rw [← heq, hmodel]
    rw [mem_data_append]
    left
    rw [mem_data_append]
    right
    decide
  rw [hspec, mem_data_append] at hnl
  rcases hnl with h1 | h2
  · exact absurd h1 (by decide)
  · have hll : longLine.data = List.replicate (LINE_CHUNK_SIZE + 1) 'a' := rfl
    rw [hll] at h2
    exact absurd (List.eq_of_mem_replicate h2) (by decide)

/-! ## Checkpointers

Modelled from the spec: the checkpointer implementations
(`src/checkpointer/memory-saver.ts`, `kv-saver.ts`, `file-saver.ts`) are not
part of the source snapshot (only their test files are).  They are modelled
from §4.7 of the specification: all implementations overwrite on save, set
`updatedAt` to the current time and preserve `createdAt` from the first save of
a thread; the in-memory saver keys by thread id, the key-value saver by a
namespaced key with prefix listing, and the file saver by a sanitized file name
(non-`[A-Za-z0-9_-]` replaced with `_`, `.json` appended) while the payload
keeps the original thread id.  The impure clock is passed explicitly as the
`now` argument; message and state types are kept abstract. -/

/-- A checkpoint (§3 of the spec), with message and agent-state types abstract. -/
structure Checkpoint (M S : Type) where
  threadId : String
  step : Nat
  messages : List M
  state : S
  createdAt : String
  updatedAt : String
deriving DecidableEq

/-- Lookup in an association-list store. -/
def getKey {β : Type} (store : List (String × β)) (k : String) : Option β :=
  (store.find? (fun e => e.1 = k)).map (fun e => e.2)

/-- Overwrite-or-insert in an association-list store: the new binding replaces
every old binding of the same key. -/
def setKey {β : Type} (store : List (String × β)) (k : String) (v : β) :
    List (String × β) :=
  (k, v) :: store.filter (fun e => ¬ e.1 = k)

/-- The record actually stored by `save`: `updatedAt` is set to the current
time, and when a checkpoint for the thread already exists its `createdAt` is
preserved. -/
def saveEntry {M S : Type} (prior : Option (Checkpoint M S))
    (c : Checkpoint M S) (now : String) : Checkpoint M S :=
  match prior with
  | some old => { c with createdAt := old.createdAt, updatedAt := now }
  | none => { c with updatedAt := now }

/-- Modelled from the spec: `MemorySaver` — a process-local map from thread id
to checkpoint. -/
structure MemorySaver (M S : Type) where
  store : List (String × Checkpoint M S)

def MemorySaver.empty {M S : Type} : MemorySaver M S := ⟨[]⟩

def MemorySaver.save {M S : Type} (s : MemorySaver M S) (c : Checkpoint M S)
    (now : String) : MemorySaver M S :=
  ⟨setKey s.store c.threadId (saveEntry (getKey s.store c.threadId) c now)⟩

def MemorySaver.load {M S : Type} (s : MemorySaver M S) (tid : String) :
    Option (Checkpoint M S) :=
  getKey s.store tid

def MemorySaver.list {M S : Type} (s : MemorySaver M S) : List String :=
  s.store.map (fun e => e.1)

/-- The storage key of the key-value saver: namespace, separator, thread id. -/
def kvKey (ns tid : String) : String := ns ++ ":" ++ tid

/-- Modelled from the spec: `KeyValueStoreSaver` — layered on an abstract store
with prefix listing, isolated by a namespace. -/
structure KeyValueStoreSaver (M S : Type) where
  ns : String
  store : List (String × Checkpoint M S)

def KeyValueStoreSaver.save {M S : Type} (s : KeyValueStoreSaver M S)
    (c : Checkpoint M S) (now : String) : KeyValueStoreSaver M S :=
  ⟨s.ns, setKey s.store (kvKey s.ns c.threadId)
    (saveEntry (getKey s.store (kvKey s.ns c.threadId)) c now)⟩

def KeyValueStoreSaver.load {M S : Type} (s : KeyValueStoreSaver M S)
    (tid : String) : Option (Checkpoint M S) :=
  getKey s.store (kvKey s.ns tid)

/-- Listing via the store's prefix listing: keys under the namespace prefix with
the prefix stripped. -/
def KeyValueStoreSaver.list {M S : Type} (s : KeyValueStoreSaver M S) :
    List String :=
  (s.store.filter (fun e => strIsPre (s.ns ++ ":") e.1)).map
    (fun e => strDropChars e.1 (s.ns ++ ":").length)

/-- Thread-id sanitization for file names: every character outside
`[A-Za-z0-9_-]` is replaced with `_`. -/
def sanitizeThreadId (tid : String) : String :=
  String.mk (tid.data.map
    (fun ch => if ch.isAlphanum ∨ ch = '_' ∨ ch = '-' then ch else '_'))

/-- The file name storing a thread's checkpoint. -/
def checkpointFileName (tid : String) : String :=
  sanitizeThreadId tid ++ ".json"

/-- Drop the last `n` characters of a string. -/
def strDropRight (s : String) (n : Nat) : String :=
  String.mk (s.data.take (s.data.length - n))

/-- Modelled from the spec: `FileSaver` — one file per thread in a directory,
keyed by the sanitized file name; the payload keeps the original thread id. -/
structure FileSaver (M S : Type) where
  files : List (String × Checkpoint M S)

def FileSaver.empty {M S : Type} : FileSaver M S := ⟨[]⟩

def FileSaver.save {M S : Type} (s : FileSaver M S) (c : Checkpoint M S)
    (now : String) : FileSaver M S :=
  ⟨setKey s.files (checkpointFileName c.threadId)
    (saveEntry (getKey s.files (checkpointFileName c.threadId)) c now)⟩

def FileSaver.load {M S : Type} (s : FileSaver M S) (tid : String) :
    Option (Checkpoint M S) :=
  getKey s.files (checkpointFileName tid)

/-- Listing via the directory listing: file names with `.json` stripped. -/
def FileSaver.list {M S : Type} (s : FileSaver M S) : List String :=
  s.files.map (fun e => strDropRight e.1 5)

theorem getKey_setKey_self {β : Type} (store : List (String × β)) (k : String)
    (v : β) : getKey (setKey store k v) k = some v := by
  simp [getKey, setKey, List.find?]

theorem strDropRight_json (x : String) : strDropRight (x ++ ".json") 5 = x := by
  unfold strDropRight
  rw [strDataAppend]
  have h5 : ".json".data.length = 5 := rfl
  have hlen : (x.data ++ ".json".data).length - 5 = x.data.length := by
    rw [List.length_append, h5]
    omega
  rw [hlen]
  rw [List.take_left]

theorem strDropChars_pre (pre rest : String) :
    strDropChars (pre ++ rest) pre.length = rest := by
  unfold strDropChars
  rw [strDataAppend]
  have hl : pre.length = pre.data.length := rfl
  rw [hl, List.drop_left]

/-- A namespaced key decomposes: any stored key that carries the namespace
prefix and strips to `tid` is the key of `tid`. -/
theorem strip_to_key {pre k tid : String} (hpre : strIsPre pre k = true)
    (hstrip : strDropChars k pre.length = tid) : k = pre ++ tid := by
  unfold strIsPre at hpre
  rcases List.isPrefixOf_iff_prefix.mp hpre with ⟨t, ht⟩
  have hk : k = pre ++ String.mk t := by
    apply strExt
    rw [strDataAppend]
    exact ht.symm
  rw [hk] at hstrip
  rw [strDropChars_pre] at hstrip
  rw [hk, hstrip]

theorem memory_list_count {M S : Type} (store : List (String × Checkpoint M S))
    (tid : String) (v : Checkpoint M S) :
    ((MemorySaver.mk (setKey store tid v)).list).count tid = 1 := by
  show ((setKey store tid v).map (fun e => e.1)).count tid = 1
  unfold setKey
  rw [List.map_cons, List.count_cons_self]
  have hz : ((store.filter (fun e => ¬ e.1 = tid)).map (fun e => e.1)).count tid = 0 := by
    rw [List.count_eq_zero]
    intro hmem
    rcases List.mem_map.mp hmem with ⟨e, he, hfst⟩
    rcases List.mem_filter.mp he with ⟨_, hne⟩
    exact (of_decide_eq_true hne) hfst
  rw [hz]

theorem kv_list_count {M S : Type} (store : List (String × Checkpoint M S))
    (ns tid : String) (v : Checkpoint M S) :
    ((KeyValueStoreSaver.mk ns (setKey store (kvKey ns tid) v)).list).count tid
      = 1 := by
  show (((setKey store (kvKey ns tid) v).filter
      (fun e => strIsPre (ns ++ ":") e.1)).map
      (fun e => strDropChars e.1 (ns ++ ":").length)).count tid = 1
  unfold setKey
  rw [List.filter_cons]
  have hpre : strIsPre (ns ++ ":") (kvKey ns tid) = true :=
    strIsPre_append (ns ++ ":") tid
  rw [if_pos hpre]
  rw [List.map_cons]
  have hstrip : strDropChars (kvKey ns tid) (ns ++ ":").length = tid :=
    strDropChars_pre (ns ++ ":") tid
  rw [hstrip, List.count_cons_self]
  have hz : (((store.filter (fun e => ¬ e.1 = kvKey ns tid)).filter
      (fun e => strIsPre (ns ++ ":") e.1)).map
      (fun e => strDropChars e.1 (ns ++ ":").length)).count tid = 0 := by
    rw [List.count_eq_zero]
    intro hmem
    rcases List.mem_map.mp hmem with ⟨e, he, hstripe⟩
    rcases List.mem_filter.mp he with ⟨he2, hpree⟩
    rcases List.mem_filter.mp he2 with ⟨_, hne⟩
    exact (of_decide_eq_true hne) (strip_to_key hpree hstripe)
  rw [hz]

theorem file_list_count {M S : Type} (store : List (String × Checkpoint M S))
    (tid : String) (v : Checkpoint M S)
    (hwf : ∀ e ∈ store, ∃ t, e.1 = checkpointFileName t) :
    ((FileSaver.mk (setKey store (checkpointFileName tid) v)).list).count
      (sanitizeThreadId tid) = 1 := by
  show ((setKey store (checkpointFileName tid) v).map
      (fun e => strDropRight e.1 5)).count (sanitizeThreadId tid) = 1
  unfold setKey
  rw [List.map_cons]
  have hhead : strDropRight (checkpointFileName tid) 5 = sanitizeThreadId tid :=
    strDropRight_json (sanitizeThreadId tid)
  rw [hhead, List.count_cons_self]
  have hz : (((store.filter (fun e => ¬ e.1 = checkpointFileName tid))).map
      (fun e => strDropRight e.1 5)).count (sanitizeThreadId tid) = 0 := by
    rw [List.count_eq_zero]
    intro hmem
    rcases List.mem_map.mp hmem with ⟨e, he, hstripe⟩
    rcases List.mem_filter.mp he with ⟨hin, hne⟩
    rcases hwf e hin with ⟨t, ht⟩
    rw [ht] at hstripe
    unfold checkpointFileName at hstripe
    rw [strDropRight_json] at hstripe
    apply (of_decide_eq_true hne)
    rw [ht]
    unfold checkpointFileName
    rw [hstripe]
  rw [hz]

/-- Concrete checkpoint over `M := String`, `S := Nat`. -/
def cpA : Checkpoint String Nat :=
  { threadId := "thread-1", step := 1, messages := ["hello"], state := 0,
    createdAt := "2024-01-01", updatedAt := "2024-01-01" }

/-- A later checkpoint of the same thread with a different `createdAt`. -/
def cpB : Checkpoint String Nat :=
  { threadId := "thread-1", step := 2, messages := ["hello", "again"], state := 1,
    createdAt := "2024-02-02", updatedAt := "2024-02-02" }

/-- C4 counterexample: saving `cpA` and then `cpB` (same thread, different
`createdAt`) and loading returns a checkpoint whose `createdAt` is `cpA`'s, not
`cpB`'s — so `save(c); load(c.threadId)` does not equal `c` in `createdAt` once
the thread has been saved before. -/
theorem memorySaver_roundtrip_createdAt_counterexample :
    ((MemorySaver.empty.save cpA "t1").save cpB "t2").load cpB.threadId
      ≠ some { cpB with updatedAt := "t2" } ∧
    (((MemorySaver.empty.save cpA "t1").save cpB "t2").load cpB.threadId).map
        (fun cp => cp.createdAt) = some cpA.createdAt ∧
    cpA.createdAt ≠ cpB.createdAt := by
  refine ⟨by decide, by decide, by decide⟩

/-- C4 (amended): for each checkpointer, saving a checkpoint whose thread has
not been saved before and loading the same thread returns a checkpoint equal to
the saved one in `threadId`, `step`, `messages`, `state` and `createdAt`, with
`updatedAt` refreshed to the save time; for an already-saved thread the first
save's `createdAt` is preserved instead of the new checkpoint's. -/
theorem checkpointer_fresh_save_roundtrip {M S : Type} (ms : MemorySaver M S)
    (kv : KeyValueStoreSaver M S) (fs : FileSaver M S) (c : Checkpoint M S)
    (now : String) :
    (getKey ms.store c.threadId = none →
      (ms.save c now).load c.threadId = some { c with updatedAt := now }) ∧
    (getKey kv.store (kvKey kv.ns c.threadId) = none →
      (kv.save c now).load c.threadId = some { c with updatedAt := now }) ∧
    (getKey fs.files (checkpointFileName c.threadId) = none →
      (fs.save c now).load c.threadId = some { c with updatedAt := now }) := by
  refine ⟨?_, ?_, ?_⟩
  · intro hfresh
    show getKey (setKey ms.store c.threadId
      (saveEntry (getKey ms.store c.threadId) c now)) c.threadId = _
    rw [getKey_setKey_self, hfresh]
    rfl
  · intro hfresh
    show getKey (setKey kv.store (kvKey kv.ns c.threadId)
      (saveEntry (getKey kv.store (kvKey kv.ns c.threadId)) c now))
      (kvKey kv.ns c.threadId) = _
    rw [getKey_setKey_self, hfresh]
    rfl
  · intro hfresh
    show getKey (setKey fs.files (checkpointFileName c.threadId)
      (saveEntry (getKey fs.files (checkpointFileName c.threadId)) c now))
      (checkpointFileName c.threadId) = _
    rw [getKey_setKey_self, hfresh]
    rfl

/-- C4 witness: the fresh-thread round-trip applied to empty savers and the
concrete checkpoint `cpA`. -/
theorem checkpointer_fresh_save_roundtrip_witness :
    (MemorySaver.empty.save cpA "t9").load cpA.threadId
      = some { cpA with updatedAt := "t9" } ∧
    ((KeyValueStoreSaver.mk "ns" []).save cpA "t9").load cpA.threadId
      = some { cpA with updatedAt := "t9" } ∧
    (FileSaver.empty.save cpA "t9").load cpA.threadId
      = some { cpA with updatedAt := "t9" } :=
  ⟨(checkpointer_fresh_save_roundtrip MemorySaver.empty
      (KeyValueStoreSaver.mk "ns" []) FileSaver.empty cpA "t9").1 rfl,
   (checkpointer_fresh_save_roundtrip MemorySaver.empty
      (KeyValueStoreSaver.mk "ns" []) FileSaver.empty cpA "t9").2.1 rfl,
   (checkpointer_fresh_save_roundtrip MemorySaver.empty
      (KeyValueStoreSaver.mk "ns" []) FileSaver.empty cpA "t9").2.2 rfl⟩

/-- C6: for each checkpointer, a second save under the same thread id
overwrites the stored checkpoint — `list` still counts exactly one entry for
the thread, the loaded checkpoint carries the second save's content with
`updatedAt` set to the second save time, and `createdAt` is preserved from the
thread's first save.  (The file saver additionally assumes that every
pre-existing file was itself written by `save`, i.e. is named
`<sanitized id>.json`.) -/
theorem checkpointer_overwrite_on_save {M S : Type} (ms : MemorySaver M S)
    (kv : KeyValueStoreSaver M S) (fs : FileSaver M S)
    (c1 c2 : Checkpoint M S) (now1 now2 : String)
    (hsame : c2.threadId = c1.threadId) :
    (getKey ms.store c1.threadId = none →
      (((ms.save c1 now1).save c2 now2).list).count c1.threadId = 1 ∧
      ((ms.save c1 now1).save c2 now2).load c1.threadId
        = some { c2 with createdAt := c1.createdAt, updatedAt := now2 }) ∧
    (getKey kv.store (kvKey kv.ns c1.threadId) = none →
      (((kv.save c1 now1).save c2 now2).list).count c1.threadId = 1 ∧
      ((kv.save c1 now1).save c2 now2).load c1.threadId
        = some { c2 with createdAt := c1.createdAt, updatedAt := now2 }) ∧
    ((∀ e ∈ fs.files, ∃ t, e.1 = checkpointFileName t) →
      getKey fs.files (checkpointFileName c1.threadId) = none →
      (((fs.save c1 now1).save c2 now2).list).count (sanitizeThreadId c1.threadId)
        = 1 ∧
      ((fs.save c1 now1).save c2 now2).load c1.threadId
        = some { c2 with createdAt := c1.createdAt, updatedAt := now2 }) := by
  refine ⟨?_, ?_, ?_⟩
  · intro hfresh
    constructor
    · show ((MemorySaver.mk (setKey (ms.save c1 now1).store c2.threadId _)).list).count
        c1.threadId = 1
      rw [hsame]
      exact memory_list_count _ _ _
    · show getKey (setKey (ms.save c1 now1).store c2.threadId
        (saveEntry (getKey (ms.save c1 now1).store c2.threadId) c2 now2)) c1.threadId = _
      rw [hsame]
      rw [getKey_setKey_self]
      have h1 : getKey (ms.save c1 now1).store c1.threadId
          = some { c1 with updatedAt := now1 } := by
        show getKey (setKey ms.store c1.threadId
          (saveEntry (getKey ms.store c1.threadId) c1 now1)) c1.threadId = _
        rw [getKey_setKey_self, hfresh]
        rfl
      rw [h1]
      simp [saveEntry, hsame]
  · intro hfresh
    constructor
    · show ((KeyValueStoreSaver.mk kv.ns
        (setKey (kv.save c1 now1).store (kvKey kv.ns c2.threadId) _)).list).count
        c1.threadId = 1
      rw [hsame]
      exact kv_list_count _ _ _ _
    · show getKey (setKey (kv.save c1 now1).store (kvKey kv.ns c2.threadId)
        (saveEntry (getKey (kv.save c1 now1).store (kvKey kv.ns c2.threadId))
          c2 now2)) (kvKey kv.ns c1.threadId) = _
      rw [hsame]
      rw [getKey_setKey_self]
      have h1 : getKey (kv.save c1 now1).store (kvKey kv.ns c1.threadId)
          = some { c1 with updatedAt := now1 } := by
        show getKey (setKey kv.store (kvKey kv.ns c1.threadId)
          (saveEntry (getKey kv.store (kvKey kv.ns c1.threadId)) c1 now1))
          (kvKey kv.ns c1.threadId) = _
        rw [getKey_setKey_self, hfresh]
        rfl
      rw [h1]
      simp [saveEntry, hsame]
  · intro hwf hfresh
    constructor
    · show ((FileSaver.mk
        (setKey (fs.save c1 now1).files (checkpointFileName c2.threadId) _)).list).count
        (sanitizeThreadId c1.threadId) = 1
      rw [hsame]
      apply file_list_count
      intro e he
      rcases List.mem_cons.mp he with hEq | hMem
      · exact ⟨c1.threadId, by rw [hEq]⟩
      · exact hwf e (List.mem_filter.mp hMem).1
    · show getKey (setKey (fs.save c1 now1).files (checkpointFileName c2.threadId)
        (saveEntry (getKey (fs.save c1 now1).files (checkpointFileName c2.threadId))
          c2 now2)) (checkpointFileName c1.threadId) = _
      rw [hsame]
      rw [getKey_setKey_self]
      have h1 : getKey (fs.save c1 now1).files (checkpointFileName c1.threadId)
          = some { c1 with updatedAt := now1 } := by
        show getKey (setKey fs.files (checkpointFileName c1.threadId)
          (saveEntry (getKey fs.files (checkpointFileName c1.threadId)) c1 now1))
          (checkpointFileName c1.threadId) = _
        rw [getKey_setKey_self, hfresh]
        rfl
      rw [h1]
      simp [saveEntry, hsame]

/-- C6 witness: the overwrite theorem applied to empty savers and the two
concrete checkpoints `cpA` and `cpB` of thread `thread-1`. -/
theorem checkpointer_overwrite_on_save_witness :
    ((((MemorySaver.empty.save cpA "t1").save cpB "t2").list).count
      cpA.threadId = 1 ∧
     ((MemorySaver.empty.save cpA "t1").save cpB "t2").load cpA.threadId
      = some { cpB with createdAt := cpA.createdAt, updatedAt := "t2" }) ∧
    (((((KeyValueStoreSaver.mk "ns" []).save cpA "t1").save cpB "t2").list).count
      cpA.threadId = 1 ∧
     (((KeyValueStoreSaver.mk "ns" []).save cpA "t1").save cpB "t2").load
        cpA.threadId
      = some { cpB with createdAt := cpA.createdAt, updatedAt := "t2" }) ∧
    ((((FileSaver.empty.save cpA "t1").save cpB "t2").list).count
      (sanitizeThreadId cpA.threadId) = 1 ∧
     ((FileSaver.empty.save cpA "t1").save cpB "t2").load cpA.threadId
      = some { cpB with createdAt := cpA.createdAt, updatedAt := "t2" }) :=
  ⟨(checkpointer_overwrite_on_save MemorySaver.empty
      (KeyValueStoreSaver.mk "ns" []) FileSaver.empty cpA cpB "t1" "t2" rfl).1 rfl,
   (checkpointer_overwrite_on_save MemorySaver.empty
      (KeyValueStoreSaver.mk "ns" []) FileSaver.empty cpA cpB "t1" "t2" rfl).2.1 rfl,
   (checkpointer_overwrite_on_save MemorySaver.empty
      (KeyValueStoreSaver.mk "ns" []) FileSaver.empty cpA cpB "t1" "t2" rfl).2.2
      (by intro e he; cases he) rfl⟩

end DeepAgent
